import Mathlib

/-!
Verification of the distribution engine of atomone-hub/genbox.

The distribution engine (`distribution` in the Go source) converts a list of
staked/liquid account balances with governance vote weights into a per-address
airdrop allocation.  All monetary quantities in the source are `sdk.Dec`
values: fixed-point decimals with 18 fractional digits backed by a big
integer.  We embed `sdk.Dec` as `ℤ` (the internal integer; the represented
value is `i / 10^18`) and translate the sdk operations faithfully:

* `Add`/`Sub` are exact integer addition/subtraction;
* `Mul` multiplies the internal integers and then chops 18 decimal digits,
  rounding half away from zero (`chopPrecisionAndRound` in the sdk);
* `Quo` computes `(a * 10^36) quo b` with truncated (toward-zero) big-integer
  division and then chops 18 digits with the same rounding.  In Go, a zero
  divisor makes `big.Int.Quo` panic; in this total embedding division by zero
  yields the junk value 0 (the relevant theorems note where this matters);
* `RoundInt` chops the 18 fractional digits, rounding half away from zero.

Maps (`airdrop.addresses`, `airdrop.addressesDetail`) are embedded as
functions `String → Option _` with pointwise insertion, mirroring Go map
assignment.  The fallible parts of `distribution` (bech32 address conversion
failure, the detail-mismatch panic) are embedded with `Except`.
-/

namespace Genbox

/-- Number of fractional decimal digits of `sdk.Dec`, as a power of ten
(internal integer scale): `10 ^ 18`, written as a literal so that kernel
reduction is immediate. -/
def PRECN : ℕ := 1000000000000000000

/-- The scale as an integer. -/
def PREC : ℤ := 1000000000000000000

/-- Half of the scale (`5 * 10 ^ 17`), the sdk's rounding threshold. -/
def HALFPRECN : ℕ := 500000000000000000

/-- `chopPrecisionAndRound` restricted to naturals: divide by `10^18` and
round half up (the sdk rounds the absolute value, so halves move away from
zero). -/
def chopN (n : ℕ) : ℤ :=
  (n / PRECN : ℕ) + (if n % PRECN = 0 then 0 else if HALFPRECN ≤ n % PRECN then 1 else 0)

/-- `chopPrecisionAndRound` of the sdk: removes 18 decimal digits from the
internal integer, rounding half away from zero (the Go code negates, chops
the absolute value, and negates back). -/
def chopRound (x : ℤ) : ℤ :=
  if 0 ≤ x then chopN x.natAbs else - chopN x.natAbs

/-- The embedding of `sdk.Dec`: the internal big integer; the decimal value
represented is `i / 10^18`. -/
abbrev Dec := ℤ

/-- `sdk.Dec.Mul`: multiply internal integers, then chop-and-round. -/
def decMul (a b : Dec) : Dec := chopRound (a * b)

/-- `sdk.Dec.Quo`: `(a * 10^18 * 10^18) quo b` with truncated division, then
chop-and-round.  The Go original panics when `b = 0` (big.Int division by
zero); here `Int.tdiv _ 0 = 0`. -/
def decQuo (a b : Dec) : Dec := chopRound (Int.tdiv (a * PREC * PREC) b)

/-- `sdk.Dec.RoundInt`: round the decimal to an integer, half away from
zero. -/
def roundInt (a : Dec) : ℤ := chopRound a

/-- `sdk.OneDec()`. -/
def oneDec : Dec := PREC

/-- `sdk.NewDec n`. -/
def newDec (n : ℤ) : Dec := n * PREC

/-- `sdk.NewDecWithPrec n p` for `p ≤ 18`: the value `n / 10^p`. -/
def newDecWithPrec (n : ℤ) (p : ℕ) : Dec := n * ((10 ^ (18 - p) : ℕ) : ℤ)

/-- List of ICF wallets (`icfWallets` in the source): the fixed slashed
address set. -/
def icfWallets : List String :=
  [ "cosmos1z8mzakma7vnaajysmtkwt4wgjqr2m84tzvyfkz",
    "cosmos1unc788q8md2jymsns24eyhua58palg5kc7cstv",
    "cosmos1sufkm72dw7ua9crpfhhp0dqpyuggtlhdse98e7",
    "cosmos1z6czaavlk6kjd48rpf58kqqw9ssad2uaxnazgl",
    "cosmos17u903qxqc6dzn3chvmc9zzp9fl4xja0pwggfj7" ]

/-- `voteMap` of the source: a map from the five vote options to a `Dec`,
always populated with all five options (`newVoteMap` initializes every
option to zero), hence a fixed record. -/
structure voteMap where
  yes : Dec
  no : Dec
  noWithVeto : Dec
  abstain : Dec
  noVote : Dec
  deriving Repr, DecidableEq

/-- `newVoteMap()`: all five options present at zero. -/
def newVoteMap : voteMap := ⟨0, 0, 0, 0, 0⟩

/-- Sum of the five entries of a `voteMap`. -/
def voteSum (v : voteMap) : Dec := v.yes + v.no + v.noWithVeto + v.abstain + v.noVote

/-- `distrib` of the source. -/
structure distrib where
  supply : Dec
  votes : voteMap
  unstaked : Dec
  deriving Repr, DecidableEq

/-- `distriParams` of the source. -/
structure distriParams where
  yesVotesMultiplier : Dec
  noVotesMultiplier : Dec
  bonus : Dec
  malus : Dec
  supplyFactor : Dec
  supplyMintFactor : Dec
  deriving Repr, DecidableEq

/-- `defaultDistriParams()` of the source. -/
def defaultDistriParams : distriParams :=
  { yesVotesMultiplier := oneDec
    noVotesMultiplier := newDec 4
    bonus := newDecWithPrec 103 2
    malus := newDecWithPrec 97 2
    supplyFactor := newDecWithPrec 1 1
    supplyMintFactor := decQuo oneDec (newDec 9) }

/-- `amtDetail` of the source. -/
structure amtDetail where
  AtomAmt : Dec
  Multiplier : Dec
  BonusMalus : Dec
  Factor : Dec
  AtoneAmt : Dec
  deriving Repr, DecidableEq

/-- `airdropDetail` of the source. -/
structure airdropDetail where
  YesDetail : amtDetail
  NoDetail : amtDetail
  NWVDetail : amtDetail
  AbsDetail : amtDetail
  DnvDetail : amtDetail
  LiquidDetail : amtDetail
  Total : Dec
  deriving Repr, DecidableEq

/-- Modelled from the spec: the `Account` record and its `voteWeights()`
method are declared outside the given source files (only their callers are
present).  Per the spec, `voteWeights()` yields a weight in `[0,1]` for each
of the five vote options, summing to 1 (all weight on NoVote when the
account did not vote); we carry the five weights directly as fields.
`distribution` only uses `Address`, `StakedAmount`, `LiquidAmount` and
`voteWeights()`. -/
structure Account where
  Address : String
  StakedAmount : Dec
  LiquidAmount : Dec
  wYes : Dec
  wNo : Dec
  wNoWithVeto : Dec
  wAbstain : Dec
  wNoVote : Dec
  deriving Repr, DecidableEq

/-- Sum of the five vote weights of an account. -/
def weightSum (acc : Account) : Dec :=
  acc.wYes + acc.wNo + acc.wNoWithVeto + acc.wAbstain + acc.wNoVote

/-- `airdrop` of the source.  The Go maps become functions to `Option`. -/
structure airdrop where
  params : distriParams
  addresses : String → Option ℤ
  addressesDetail : String → Option airdropDetail
  nonVotersMultiplier : Dec
  atom : distrib
  atone : distrib
  icfSlash : Dec
  communityPool : Dec
  reservedAddr : Dec

/-- Go map assignment `m[k] = v` on the functional embedding. -/
def mapInsert {α : Type} (m : String → Option α) (k : String) (v : α) :
    String → Option α :=
  fun s => if s = k then some v else m s

/-- First pass of `distribution` (lines 130-150), one account: accumulate
the vote-weighted staked amounts into the $ATOM vote map, and the
staked+liquid amounts into the $ATOM supply and unstaked totals.  Note there
is no slashed-address test in this pass. -/
def pass1step (d : distrib) (acc : Account) : distrib :=
  { supply := d.supply + (acc.StakedAmount + acc.LiquidAmount)
    votes :=
      { yes := d.votes.yes + decMul acc.wYes acc.StakedAmount
        no := d.votes.no + decMul acc.wNo acc.StakedAmount
        noWithVeto := d.votes.noWithVeto + decMul acc.wNoWithVeto acc.StakedAmount
        abstain := d.votes.abstain + decMul acc.wAbstain acc.StakedAmount
        noVote := d.votes.noVote + decMul acc.wNoVote acc.StakedAmount }
    unstaked := d.unstaked + acc.LiquidAmount }

/-- First pass of `distribution`, whole account list. -/
def pass1 (accounts : List Account) : distrib :=
  accounts.foldl pass1step ⟨0, newVoteMap, 0⟩

/-- `yesAtoneTotalAmt` (line 154). -/
def yesAtoneTotalAmt (d : distrib) (params : distriParams) : Dec :=
  decMul d.votes.yes params.yesVotesMultiplier

/-- `noAtoneTotalAmt` (line 155). -/
def noAtoneTotalAmt (d : distrib) (params : distriParams) : Dec :=
  decMul (d.votes.no + d.votes.noWithVeto) params.noVotesMultiplier

/-- `noVotersAtomTotalAmt` (line 156): the aggregated non-voter pool. -/
def noVotersAtomTotalAmt (d : distrib) : Dec :=
  d.votes.abstain + d.votes.noVote + d.unstaked

/-- `targetNonVotersPerc` (line 157): 0.33. -/
def targetNonVotersPerc : Dec := newDecWithPrec 33 2

/-- The non-voters multiplier computation (lines 159-163):
`targetNonVotersPerc * (yesAtoneTotalAmt + noAtoneTotalAmt)` divided by
`(1 - targetNonVotersPerc) * noVotersAtomTotalAmt`. -/
def nonVotersMultiplierOf (d : distrib) (params : distriParams) : Dec :=
  decQuo (decMul targetNonVotersPerc (yesAtoneTotalAmt d params + noAtoneTotalAmt d params))
    (decMul (oneDec - targetNonVotersPerc) (noVotersAtomTotalAmt d))

/-- The per-account award computation of the second pass (lines 172-199),
as a record of all the intermediate values of the source's `var` block. -/
structure awards where
  yesAtomAmt : Dec
  noAtomAmt : Dec
  noWithVetoAtomAmt : Dec
  abstainAtomAmt : Dec
  noVoteAtomAmt : Dec
  yesAirdropAmt : Dec
  noAirdropAmt : Dec
  noWithVetoAirdropAmt : Dec
  abstainAirdropAmt : Dec
  noVoteAirdropAmt : Dec
  liquidMultiplier : Dec
  liquidAirdropAmt : Dec
  stakedAirdropAmt : Dec
  airdropAmt : Dec
  deriving Repr, DecidableEq

/-- Per-account award amounts (source lines 172-199). -/
def accountAwards (params : distriParams) (nonVotersMultiplier : Dec) (acc : Account) :
    awards :=
  let yesAtomAmt := decMul acc.wYes acc.StakedAmount
  let noAtomAmt := decMul acc.wNo acc.StakedAmount
  let noWithVetoAtomAmt := decMul acc.wNoWithVeto acc.StakedAmount
  let abstainAtomAmt := decMul acc.wAbstain acc.StakedAmount
  let noVoteAtomAmt := decMul acc.wNoVote acc.StakedAmount
  let yesAirdropAmt := decMul (decMul yesAtomAmt params.yesVotesMultiplier) params.supplyFactor
  let noAirdropAmt := decMul (decMul noAtomAmt params.noVotesMultiplier) params.supplyFactor
  let noWithVetoAirdropAmt :=
    decMul (decMul (decMul noWithVetoAtomAmt params.noVotesMultiplier) params.bonus)
      params.supplyFactor
  let abstainAirdropAmt := decMul (decMul abstainAtomAmt nonVotersMultiplier) params.supplyFactor
  let noVoteAirdropAmt :=
    decMul (decMul (decMul noVoteAtomAmt nonVotersMultiplier) params.malus) params.supplyFactor
  let liquidMultiplier := decMul nonVotersMultiplier params.malus
  let liquidAirdropAmt := decMul (decMul acc.LiquidAmount liquidMultiplier) params.supplyFactor
  let stakedAirdropAmt :=
    yesAirdropAmt + noAirdropAmt + noWithVetoAirdropAmt + abstainAirdropAmt + noVoteAirdropAmt
  let airdropAmt := liquidAirdropAmt + stakedAirdropAmt
  { yesAtomAmt := yesAtomAmt
    noAtomAmt := noAtomAmt
    noWithVetoAtomAmt := noWithVetoAtomAmt
    abstainAtomAmt := abstainAtomAmt
    noVoteAtomAmt := noVoteAtomAmt
    yesAirdropAmt := yesAirdropAmt
    noAirdropAmt := noAirdropAmt
    noWithVetoAirdropAmt := noWithVetoAirdropAmt
    abstainAirdropAmt := abstainAirdropAmt
    noVoteAirdropAmt := noVoteAirdropAmt
    liquidMultiplier := liquidMultiplier
    liquidAirdropAmt := liquidAirdropAmt
    stakedAirdropAmt := stakedAirdropAmt
    airdropAmt := airdropAmt }

/-- The second pass's increments to the $ATONE distrib (lines 200-208). -/
def addAtone (d : distrib) (aw : awards) : distrib :=
  { supply := d.supply + aw.airdropAmt
    votes :=
      { yes := d.votes.yes + aw.yesAirdropAmt
        no := d.votes.no + aw.noAirdropAmt
        noWithVeto := d.votes.noWithVeto + aw.noWithVetoAirdropAmt
        abstain := d.votes.abstain + aw.abstainAirdropAmt
        noVote := d.votes.noVote + aw.noVoteAirdropAmt }
    unstaked := d.unstaked + aw.liquidAirdropAmt }

/-- The `airdropDetail` record stored for an address (lines 222-266). -/
def mkDetail (params : distriParams) (nonVotersMultiplier : Dec) (acc : Account)
    (aw : awards) : airdropDetail :=
  { YesDetail :=
      { AtomAmt := aw.yesAtomAmt, Multiplier := params.yesVotesMultiplier,
        BonusMalus := oneDec, Factor := params.supplyFactor, AtoneAmt := aw.yesAirdropAmt }
    NoDetail :=
      { AtomAmt := aw.noAtomAmt, Multiplier := params.noVotesMultiplier,
        BonusMalus := oneDec, Factor := params.supplyFactor, AtoneAmt := aw.noAirdropAmt }
    NWVDetail :=
      { AtomAmt := aw.noWithVetoAtomAmt, Multiplier := params.noVotesMultiplier,
        BonusMalus := params.bonus, Factor := params.supplyFactor,
        AtoneAmt := aw.noWithVetoAirdropAmt }
    AbsDetail :=
      { AtomAmt := aw.abstainAtomAmt, Multiplier := nonVotersMultiplier,
        BonusMalus := oneDec, Factor := params.supplyFactor, AtoneAmt := aw.abstainAirdropAmt }
    DnvDetail :=
      { AtomAmt := aw.noVoteAtomAmt, Multiplier := nonVotersMultiplier,
        BonusMalus := params.malus, Factor := params.supplyFactor,
        AtoneAmt := aw.noVoteAirdropAmt }
    LiquidDetail :=
      { AtomAmt := acc.LiquidAmount, Multiplier := nonVotersMultiplier,
        BonusMalus := params.malus, Factor := params.supplyFactor,
        AtoneAmt := aw.liquidAirdropAmt }
    Total := aw.airdropAmt }

/-- Failure modes of `distribution`: a bech32 conversion error (returned as
a Go error value) and the detail-sum mismatch (a Go `panic`; embedded as an
error so that its unreachability can be stated). -/
inductive DistErr where
  | bech32 (msg : String)
  | detailMismatch
  deriving Repr, DecidableEq

/-- The increments of the second pass to the `airdrop` under construction
for a non-slashed account, before the zero-award test (lines 200-208). -/
def pass2core (ad : airdrop) (acc : Account) : airdrop :=
  { ad with atone := addAtone ad.atone (accountAwards ad.params ad.nonVotersMultiplier acc) }

/-- Recording a non-zero rounded award under its output address
(lines 221-266). -/
def pass2record (ad1 : airdrop) (addr : String) (amtInt : ℤ) (det : airdropDetail) : airdrop :=
  { ad1 with
    addresses := mapInsert ad1.addresses addr amtInt
    addressesDetail := mapInsert ad1.addressesDetail addr det }

/-- Second pass of `distribution` (lines 165-272), one account.  `cvt` is
the bech32 converter `convertBech32` (`src/parsing.go`), an external pure
utility taken as a parameter (its bech32 codec lives outside the given
sources); `pfx` is the target address prefix.  The distribution parameters
and the solved non-voters multiplier are read from the `airdrop` under
construction, as in the source. -/
def pass2step (cvt : String → String → String → Except String String) (pfx : String)
    (ad : airdrop) (acc : Account) : Except DistErr airdrop :=
  if acc.Address ∈ icfWallets then
    -- Slash ICF (lines 166-170)
    .ok { ad with icfSlash := ad.icfSlash + acc.LiquidAmount + acc.StakedAmount }
  else
    let aw := accountAwards ad.params ad.nonVotersMultiplier acc
    -- add address and amount, skipping 0 balance (lines 209-271)
    if roundInt aw.airdropAmt = 0 then .ok (pass2core ad acc)
    else
      match (if pfx = "" then .ok acc.Address else cvt acc.Address "cosmos" pfx) with
      | .error e => .error (.bech32 e)
      | .ok addr =>
        if aw.yesAirdropAmt + aw.noAirdropAmt + aw.noWithVetoAirdropAmt +
            aw.abstainAirdropAmt + aw.noVoteAirdropAmt + aw.liquidAirdropAmt = aw.airdropAmt
        then .ok (pass2record (pass2core ad acc) addr (roundInt aw.airdropAmt)
          (mkDetail ad.params ad.nonVotersMultiplier acc aw))
        else .error .detailMismatch

/-- The `airdrop` value as initialized by `distribution` and completed by
its first pass and the multiplier computation (lines 114-163): empty maps,
zero totals, the $ATOM distrib aggregated over all accounts and the solved
non-voters multiplier. -/
def distributionInit (accounts : List Account) (params : distriParams) : airdrop :=
  { params := params
    addresses := fun _ => none
    addressesDetail := fun _ => none
    nonVotersMultiplier := nonVotersMultiplierOf (pass1 accounts) params
    atom := pass1 accounts
    atone := ⟨0, newVoteMap, 0⟩
    icfSlash := 0
    communityPool := 0
    reservedAddr := 0 }

/-- `distribution` (lines 113-278).  The Go function returns
`(airdrop, error)`; on a conversion error it returns the error together with
the partially built value, which callers discard — embedded as `Except`. -/
def distribution (cvt : String → String → String → Except String String)
    (accounts : List Account) (params : distriParams) (pfx : String) :
    Except DistErr airdrop :=
  match accounts.foldlM (pass2step cvt pfx) (distributionInit accounts params) with
  | .error e => .error e
  | .ok ad =>
    -- Compute minted part (lines 273-277)
    let minted := decMul ad.atone.supply params.supplyMintFactor
    .ok { ad with
      communityPool := decQuo minted (newDec 2)
      reservedAddr := decQuo minted (newDec 2) }

/-! ### Spec-side reference definitions and concrete inputs

Definitions in this section are not translations of the source: the first
two follow the spec's words (refinement references), and the rest are
concrete inputs and boolean projections used by witnesses and
counterexamples. -/

/-- The spec's §4.2 formula, following the spec's words:
`yesWeighted = votes[Yes] * yesMultiplier`,
`noWeighted = (votes[No] + votes[NoWithVeto]) * noMultiplier`,
`nonVoterPool = votes[Abstain] + votes[NoVote] + unstaked`, `target = 0.33`,
result `target * (yesWeighted + noWeighted) / ((1 - target) * nonVoterPool)`,
to be compared with the source's `nonVotersMultiplierOf`. -/
def specNonVotersMultiplier (d : distrib) (params : distriParams) : Dec :=
  decQuo
    (decMul (newDecWithPrec 33 2)
      (decMul d.votes.yes params.yesVotesMultiplier +
        decMul (d.votes.no + d.votes.noWithVeto) params.noVotesMultiplier))
    (decMul (oneDec - newDecWithPrec 33 2) (d.votes.abstain + d.votes.noVote + d.unstaked))

/-- The exact-arithmetic (rational) reading of the solver formula of
`nonVotersMultiplierOf`, for the algebraic characterization of the
multiplier: `target * (yesWeighted + noWeighted) / ((1 - target) * pool)`
with `target = 0.33`. -/
def nonVotersMultiplierExact (yesWeighted noWeighted nonVoterPool : ℚ) : ℚ :=
  33 / 100 * (yesWeighted + noWeighted) / ((1 - 33 / 100) * nonVoterPool)

/-- A bech32 converter that succeeds and returns the address unchanged. -/
def cvtId : String → String → String → Except String String := fun a _ _ => .ok a

/-- A bech32 converter that always fails. -/
def cvtBad : String → String → String → Except String String :=
  fun _ _ _ => .error "decoding bech32 failed"

/-- Concrete account: voted 100% Yes with 10 staked. -/
def accY : Account :=
  { Address := "a1"
    StakedAmount := newDec 10
    LiquidAmount := 0
    wYes := oneDec
    wNo := 0
    wNoWithVeto := 0
    wAbstain := 0
    wNoVote := 0 }

/-- Concrete account: did not vote, 10 staked. -/
def accN : Account :=
  { Address := "a2"
    StakedAmount := newDec 10
    LiquidAmount := 0
    wYes := 0
    wNo := 0
    wNoWithVeto := 0
    wAbstain := 0
    wNoVote := oneDec }

/-- Concrete two-account list: one Yes voter and one non-voter. -/
def accsW : List Account := [accY, accN]

/-- Concrete account whose five weights sum to one but whose per-option
products round: weights `6e-18`, `6e-18`, `1 - 12e-18` on Yes/No/Abstain
with `0.1` staked. -/
def accCE : Account :=
  { Address := "c1"
    StakedAmount := 100000000000000000
    LiquidAmount := 0
    wYes := 6
    wNo := 6
    wNoWithVeto := 0
    wAbstain := PREC - 12
    wNoVote := 0 }

/-- Concrete account list whose aggregated non-voter pool is zero: a single
account that voted 100% Yes. -/
def accAllYes : Account :=
  { Address := "z1"
    StakedAmount := newDec 100
    LiquidAmount := 0
    wYes := oneDec
    wNo := 0
    wNoWithVeto := 0
    wAbstain := 0
    wNoVote := 0 }

/-- Concrete slashed account (address on the ICF wallet list) with 50
staked and 50 liquid. -/
def accICF : Account :=
  { Address := "cosmos1sufkm72dw7ua9crpfhhp0dqpyuggtlhdse98e7"
    StakedAmount := newDec 50
    LiquidAmount := newDec 50
    wYes := 0
    wNo := 0
    wNoWithVeto := 0
    wAbstain := 0
    wNoVote := oneDec }

/-- Concrete slashed account that voted 100% Yes with 100 staked. -/
def accICFYes : Account :=
  { Address := "cosmos1z8mzakma7vnaajysmtkwt4wgjqr2m84tzvyfkz"
    StakedAmount := newDec 100
    LiquidAmount := 0
    wYes := oneDec
    wNo := 0
    wNoWithVeto := 0
    wAbstain := 0
    wNoVote := 0 }

/-- The conservation defect a single account contributes to the pass-1
$ATOM aggregation: the sum of its five rounded per-option products minus
its staked amount (zero at exact arithmetic when the weights sum to 1). -/
def acctDefect (acc : Account) : ℤ :=
  decMul acc.wYes acc.StakedAmount + decMul acc.wNo acc.StakedAmount +
    decMul acc.wNoWithVeto acc.StakedAmount + decMul acc.wAbstain acc.StakedAmount +
    decMul acc.wNoVote acc.StakedAmount - acc.StakedAmount

/-- Boolean check that an `airdropDetail`'s `Total` equals the sum of its
six result amounts. -/
def detailTotalB (d : airdropDetail) : Bool :=
  d.Total == d.YesDetail.AtoneAmt + d.NoDetail.AtoneAmt + d.NWVDetail.AtoneAmt +
    d.AbsDetail.AtoneAmt + d.DnvDetail.AtoneAmt + d.LiquidDetail.AtoneAmt

/-- Boolean check of exact distrib conservation. -/
def conserveB (d : distrib) : Bool := voteSum d.votes + d.unstaked == d.supply

/-- Boolean check that the conservation defect of a distrib is at most
`2 * n` internal decimal units. -/
def sourceDeltaLeB (d : distrib) (n : ℕ) : Bool :=
  Nat.ble (voteSum d.votes + d.unstaked - d.supply).natAbs (2 * n)

/-! ### Helper lemmas: `Except` folds -/

theorem except_bind_ok {ε α β : Type} (a : α) (g : α → Except ε β) :
    (Except.ok a >>= g) = g a := rfl

theorem except_bind_error {ε α β : Type} (e : ε) (g : α → Except ε β) :
    ((Except.error e : Except ε α) >>= g) = Except.error e := rfl

/-- An invariant preserved by every successful step of a fold over `Except`
holds of a successful fold result. -/
theorem foldlM_ok_inv {σ α ε : Type} (f : σ → α → Except ε σ) (P : σ → Prop)
    (hf : ∀ s a s', P s → f s a = .ok s' → P s') :
    ∀ (l : List α) (s s' : σ), P s → List.foldlM f s l = .ok s' → P s' := by
  intro l
  induction l with
  | nil =>
    intro s s' hP h
    simp only [List.foldlM_nil] at h
    cases h
    exact hP
  | cons a l ih =>
    intro s s' hP h
    rw [List.foldlM_cons] at h
    cases h1 : f s a with
    | error e => rw [h1, except_bind_error] at h; cases h
    | ok s1 => rw [h1, except_bind_ok] at h; exact ih s1 s' (hf s a s1 hP h1) h

/-- If no step of a fold over `Except` can return the error `E`, neither can
the fold. -/
theorem foldlM_ne_error {σ α ε : Type} (f : σ → α → Except ε σ) (E : ε)
    (hf : ∀ s a, f s a ≠ .error E) :
    ∀ (l : List α) (s : σ), List.foldlM f s l ≠ .error E := by
  intro l
  induction l with
  | nil => intro s h; simp only [List.foldlM_nil] at h; cases h
  | cons a l ih =>
    intro s h
    rw [List.foldlM_cons] at h
    cases h1 : f s a with
    | error e =>
      rw [h1, except_bind_error] at h
      cases h
      exact hf s a h1
    | ok s1 => rw [h1, except_bind_ok] at h; exact ih s1 h

/-- If some element of the list makes the step fail from every state
satisfying a step-invariant `Q`, the whole fold fails. -/
theorem foldlM_reaches_error {σ α ε : Type} (f : σ → α → Except ε σ) (Q : σ → Prop)
    (hQ : ∀ s a s', Q s → f s a = .ok s' → Q s') (a : α)
    (ha : ∀ s, Q s → ∃ e, f s a = .error e) :
    ∀ (l : List α) (s : σ), a ∈ l → Q s → ∃ e, List.foldlM f s l = .error e := by
  intro l
  induction l with
  | nil => intro s hm; cases hm
  | cons b l ih =>
    intro s hm hs
    rw [List.foldlM_cons]
    rcases List.mem_cons.mp hm with rfl | hm
    · obtain ⟨e, he⟩ := ha s hs
      exact ⟨e, by rw [he, except_bind_error]⟩
    · cases h1 : f s b with
      | error e => exact ⟨e, by rw [except_bind_error]⟩
      | ok s1 => rw [except_bind_ok]; exact ih s1 hm (hQ s b s1 hs h1)

/-! ### Helper lemmas: awards -/

theorem accountAwards_staked_eq (params : distriParams) (m : Dec) (acc : Account) :
    (accountAwards params m acc).stakedAirdropAmt =
      (accountAwards params m acc).yesAirdropAmt + (accountAwards params m acc).noAirdropAmt +
      (accountAwards params m acc).noWithVetoAirdropAmt +
      (accountAwards params m acc).abstainAirdropAmt +
      (accountAwards params m acc).noVoteAirdropAmt := rfl

theorem accountAwards_airdrop_eq (params : distriParams) (m : Dec) (acc : Account) :
    (accountAwards params m acc).airdropAmt =
      (accountAwards params m acc).liquidAirdropAmt +
      (accountAwards params m acc).stakedAirdropAmt := rfl

/-- The six result amounts of an account sum exactly to its total airdrop
amount (the sum the source's self-check recomputes in line 267). -/
theorem awards_sum_eq (params : distriParams) (m : Dec) (acc : Account) :
    (accountAwards params m acc).yesAirdropAmt + (accountAwards params m acc).noAirdropAmt +
      (accountAwards params m acc).noWithVetoAirdropAmt +
      (accountAwards params m acc).abstainAirdropAmt +
      (accountAwards params m acc).noVoteAirdropAmt +
      (accountAwards params m acc).liquidAirdropAmt =
    (accountAwards params m acc).airdropAmt := by
  rw [accountAwards_airdrop_eq, accountAwards_staked_eq]
  ring

/-! ### Helper lemmas: the second pass -/

theorem pass2step_slashed (cvt : String → String → String → Except String String)
    (pfx : String) (ad : airdrop) (acc : Account) (h : acc.Address ∈ icfWallets) :
    pass2step cvt pfx ad acc =
      .ok { ad with icfSlash := ad.icfSlash + acc.LiquidAmount + acc.StakedAmount } := by
  simp only [pass2step]
  rw [if_pos h]

theorem pass2step_zero (cvt : String → String → String → Except String String)
    (pfx : String) (ad : airdrop) (acc : Account) (hns : acc.Address ∉ icfWallets)
    (hz : roundInt (accountAwards ad.params ad.nonVotersMultiplier acc).airdropAmt = 0) :
    pass2step cvt pfx ad acc = .ok (pass2core ad acc) := by
  simp only [pass2step]
  rw [if_neg hns, if_pos hz]

/-- A successful step keeps the parameters, the solved multiplier and the
$ATOM distrib of the `airdrop` unchanged. -/
theorem pass2step_fields (cvt : String → String → String → Except String String)
    (pfx : String) (ad : airdrop) (acc : Account) (ad' : airdrop)
    (h : pass2step cvt pfx ad acc = .ok ad') :
    ad'.params = ad.params ∧ ad'.nonVotersMultiplier = ad.nonVotersMultiplier ∧
      ad'.atom = ad.atom := by
  simp only [pass2step] at h
  split at h
  · cases h; exact ⟨rfl, rfl, rfl⟩
  · split at h
    · cases h; exact ⟨rfl, rfl, rfl⟩
    · split at h
      · cases h
      · split at h
        · cases h; exact ⟨rfl, rfl, rfl⟩
        · cases h

/-- The self-check of the per-account allocator always passes: a step never
produces the detail-mismatch panic. -/
theorem pass2step_ne_detailMismatch (cvt : String → String → String → Except String String)
    (pfx : String) (ad : airdrop) (acc : Account) :
    pass2step cvt pfx ad acc ≠ .error DistErr.detailMismatch := by
  simp only [pass2step]
  split
  · intro h; cases h
  · split
    · intro h; cases h
    · split
      · intro h; cases h
      · rw [if_pos (awards_sum_eq ad.params ad.nonVotersMultiplier acc)]
        intro h; cases h

/-- Successful runs of `distribution` decompose into a successful second
pass from `distributionInit` followed by the minted-part computation. -/
theorem distribution_ok_elim (cvt : String → String → String → Except String String)
    (accounts : List Account) (params : distriParams) (pfx : String) (res : airdrop)
    (h : distribution cvt accounts params pfx = .ok res) :
    ∃ ad, List.foldlM (pass2step cvt pfx) (distributionInit accounts params) accounts = .ok ad ∧
      res = { ad with
        communityPool := decQuo (decMul ad.atone.supply params.supplyMintFactor) (newDec 2)
        reservedAddr := decQuo (decMul ad.atone.supply params.supplyMintFactor) (newDec 2) } := by
  simp only [distribution] at h
  split at h
  · cases h
  · next ad heq => cases h; exact ⟨ad, heq, rfl⟩

/-- `distribution` returns `params`, the pass-1 $ATOM aggregation, and the
multiplier solved from it, in the corresponding result fields. -/
theorem distribution_ok_fields (cvt : String → String → String → Except String String)
    (accounts : List Account) (params : distriParams) (pfx : String) (res : airdrop)
    (h : distribution cvt accounts params pfx = .ok res) :
    res.params = params ∧
      res.nonVotersMultiplier = nonVotersMultiplierOf (pass1 accounts) params ∧
      res.atom = pass1 accounts := by
  obtain ⟨ad, heq, rfl⟩ := distribution_ok_elim cvt accounts params pfx res h
  have hP := foldlM_ok_inv (pass2step cvt pfx)
    (fun s => s.params = params ∧
      s.nonVotersMultiplier = nonVotersMultiplierOf (pass1 accounts) params ∧
      s.atom = pass1 accounts)
    (fun s a s' hs hstep => by
      obtain ⟨h1, h2, h3⟩ := pass2step_fields cvt pfx s a s' hstep
      exact ⟨h1.trans hs.1, (h2.trans hs.2.1 : _), h3.trans hs.2.2⟩)
    accounts _ ad ⟨rfl, rfl, rfl⟩ heq
  exact ⟨hP.1, hP.2.1, hP.2.2⟩

/-! ### Claims -/

/-- Claim C1: for every non-empty account list whose aggregated non-voter
pool (`votes[Abstain] + votes[NoVote] + unstaked` of the $ATOM distrib) is
non-zero, `distribution` sets `nonVotersMultiplier` to exactly
`target * (yesWeighted + noWeighted) / ((1 - target) * nonVoterPool)` with
`target = 0.33`, `yesWeighted = votes[Yes] * yesMultiplier` and
`noWeighted = (votes[No] + votes[NoWithVeto]) * noMultiplier`, all computed
from the pass-1 source-token aggregates (`specNonVotersMultiplier` is the
spec's formula verbatim, evaluated on `pass1 accounts`). -/
theorem c1_nonVotersMultiplier_formula (cvt : String → String → String → Except String String)
    (accounts : List Account) (params : distriParams) (pfx : String) (res : airdrop)
    (hne : accounts ≠ [])
    (hpool : noVotersAtomTotalAmt (pass1 accounts) ≠ 0)
    (h : distribution cvt accounts params pfx = .ok res) :
    res.nonVotersMultiplier = specNonVotersMultiplier (pass1 accounts) params := by
  obtain ⟨-, h2, -⟩ := distribution_ok_fields cvt accounts params pfx res h
  exact h2.trans rfl

theorem c1_nonVotersMultiplier_formula_witness :
    accsW ≠ ([] : List Account) ∧ noVotersAtomTotalAmt (pass1 accsW) ≠ 0 ∧
      (distribution cvtId accsW defaultDistriParams "").toOption.map airdrop.nonVotersMultiplier =
        some (specNonVotersMultiplier (pass1 accsW) defaultDistriParams) := by
  refine ⟨by decide, by decide, ?_⟩
  cases hE : distribution cvtId accsW defaultDistriParams "" with
  | error e =>
    have hs : (distribution cvtId accsW defaultDistriParams "").toOption.isSome = true := by
      decide
    rw [hE] at hs
    simp [Except.toOption] at hs
  | ok res =>
    have h := c1_nonVotersMultiplier_formula cvtId accsW defaultDistriParams "" res
      (by decide) (by decide) hE
    simp [Except.toOption, h]

/-- Claim C2 (code bug): the source performs no explicit zero-pool check.
On the concrete single-account list `[accAllYes]` the aggregated non-voter
pool is zero, yet `distribution` still reaches and performs the division
and returns a successful result: no explicit failure result is reported.
(In Go, `sdk.Dec.Quo` panics on a zero divisor inside the big-integer
division; in this total embedding the division yields the junk value 0 —
under neither semantics does the function check the divisor or report an
explicit precondition failure, contrary to the claim.) -/
theorem c2_zero_pool_not_checked :
    noVotersAtomTotalAmt (pass1 [accAllYes]) = 0 ∧
      (distribution cvtId [accAllYes] defaultDistriParams "").toOption.isSome = true := by
  constructor
  · decide
  · decide

/-- Claim C9: the solved multiplier is, at exact arithmetic, the unique
scalar `m` making the non-voter pool's share of the post-multiplier supply
equal to the target: for `yesWeighted, noWeighted ≥ 0`, `pool > 0` and
`yesWeighted + noWeighted > 0`, `m = nonVotersMultiplierExact` satisfies
`(m * pool) / (yesWeighted + noWeighted + m * pool) = 0.33` and is the only
scalar that does. -/
theorem c9_multiplier_unique_solution (yesW noW pool : ℚ)
    (hy : 0 ≤ yesW) (hn : 0 ≤ noW) (hp : 0 < pool) (hs : 0 < yesW + noW) :
    nonVotersMultiplierExact yesW noW pool * pool /
        (yesW + noW + nonVotersMultiplierExact yesW noW pool * pool) = 33 / 100 ∧
      ∀ m : ℚ, m * pool / (yesW + noW + m * pool) = 33 / 100 →
        m = nonVotersMultiplierExact yesW noW pool := by
  have hpool : nonVotersMultiplierExact yesW noW pool * pool = 33 / 67 * (yesW + noW) := by
    rw [nonVotersMultiplierExact]
    field_simp
    ring
  constructor
  · rw [hpool]
    have hden : yesW + noW + 33 / 67 * (yesW + noW) = 100 / 67 * (yesW + noW) := by ring
    rw [hden, div_eq_iff (by positivity)]
    ring
  · intro m hm
    have hden : yesW + noW + m * pool ≠ 0 := by
      intro h0
      rw [h0, div_zero] at hm
      norm_num at hm
    rw [div_eq_iff hden] at hm
    have hm67 : m * pool = 33 / 67 * (yesW + noW) := by linarith
    have : m * pool = nonVotersMultiplierExact yesW noW pool * pool := by
      rw [hpool, hm67]
    exact mul_right_cancel₀ (ne_of_gt hp) this

theorem c9_multiplier_unique_solution_witness :
    (0 : ℚ) ≤ 1 ∧ (0 : ℚ) ≤ 1 ∧ (0 : ℚ) < 2 ∧ (0 : ℚ) < 1 + 1 ∧
      nonVotersMultiplierExact 1 1 2 * 2 / (1 + 1 + nonVotersMultiplierExact 1 1 2 * 2) =
        33 / 100 :=
  ⟨by norm_num, by norm_num, by norm_num, by norm_num,
    (c9_multiplier_unique_solution 1 1 2 (by norm_num) (by norm_num) (by norm_num)
      (by norm_num)).1⟩

/-- Claim C3: for every non-slashed account, the award amounts are the
per-option source amounts (`voteWeights[option] * stakedAmount`) scaled by
the multipliers the spec lists: `yesMultiplier` for Yes, `noMultiplier` for
No, `noMultiplier * bonus` for NoWithVeto, `nonVotersMultiplier` (no malus)
for Abstain, `nonVotersMultiplier * malus` for NoVote and for the liquid
amount, all times `supplyFactor`; the total is the sum of the five staked
awards plus the liquid award.  (For the liquid award the source multiplies
`nonVotersMultiplier * malus` first, as stated here; the factor list is the
spec's.) -/
theorem c3_award_formulas (params : distriParams) (m : Dec) (acc : Account)
    (hns : acc.Address ∉ icfWallets) :
    (accountAwards params m acc).yesAirdropAmt =
        decMul (decMul (decMul acc.wYes acc.StakedAmount) params.yesVotesMultiplier)
          params.supplyFactor ∧
      (accountAwards params m acc).noAirdropAmt =
        decMul (decMul (decMul acc.wNo acc.StakedAmount) params.noVotesMultiplier)
          params.supplyFactor ∧
      (accountAwards params m acc).noWithVetoAirdropAmt =
        decMul (decMul (decMul (decMul acc.wNoWithVeto acc.StakedAmount)
          params.noVotesMultiplier) params.bonus) params.supplyFactor ∧
      (accountAwards params m acc).abstainAirdropAmt =
        decMul (decMul (decMul acc.wAbstain acc.StakedAmount) m) params.supplyFactor ∧
      (accountAwards params m acc).noVoteAirdropAmt =
        decMul (decMul (decMul (decMul acc.wNoVote acc.StakedAmount) m) params.malus)
          params.supplyFactor ∧
      (accountAwards params m acc).liquidAirdropAmt =
        decMul (decMul acc.LiquidAmount (decMul m params.malus)) params.supplyFactor ∧
      (accountAwards params m acc).airdropAmt =
        (accountAwards params m acc).yesAirdropAmt + (accountAwards params m acc).noAirdropAmt +
          (accountAwards params m acc).noWithVetoAirdropAmt +
          (accountAwards params m acc).abstainAirdropAmt +
          (accountAwards params m acc).noVoteAirdropAmt +
          (accountAwards params m acc).liquidAirdropAmt := by
  refine ⟨rfl, rfl, rfl, rfl, rfl, rfl, ?_⟩
  exact (awards_sum_eq params m acc).symm

theorem c3_award_formulas_witness :
    accY.Address ∉ icfWallets ∧
      (accountAwards defaultDistriParams (newDec 1) accY).airdropAmt =
        (accountAwards defaultDistriParams (newDec 1) accY).yesAirdropAmt +
          (accountAwards defaultDistriParams (newDec 1) accY).noAirdropAmt +
          (accountAwards defaultDistriParams (newDec 1) accY).noWithVetoAirdropAmt +
          (accountAwards defaultDistriParams (newDec 1) accY).abstainAirdropAmt +
          (accountAwards defaultDistriParams (newDec 1) accY).noVoteAirdropAmt +
          (accountAwards defaultDistriParams (newDec 1) accY).liquidAirdropAmt :=
  ⟨by decide,
    (c3_award_formulas defaultDistriParams (newDec 1) accY (by decide)).2.2.2.2.2.2⟩

/-- A non-slashed account whose rounded award is non-zero and whose address
conversion fails makes the step fail from every state carrying the given
parameters and multiplier. -/
theorem pass2step_fails (cvt : String → String → String → Except String String)
    (pfx : String) (params : distriParams) (M : Dec) (acc : Account) (msg : String)
    (hns : acc.Address ∉ icfWallets)
    (hnz : roundInt (accountAwards params M acc).airdropAmt ≠ 0)
    (hpfx : pfx ≠ "")
    (hcvt : cvt acc.Address "cosmos" pfx = .error msg) :
    ∀ s : airdrop, s.params = params → s.nonVotersMultiplier = M →
      ∃ e, pass2step cvt pfx s acc = .error e := by
  intro s h1 h2
  refine ⟨.bech32 msg, ?_⟩
  simp only [pass2step]
  rw [h1, h2, if_neg hns, if_neg hnz, if_neg hpfx, hcvt]

/-- Claim C4: with address re-encoding configured (non-empty prefix), a
bech32 conversion failure for an account whose (non-slashed, non-zero
rounded) award would be recorded aborts the whole `distribution` call: no
airdrop value is produced. -/
theorem c4_conversion_failure_atomic (cvt : String → String → String → Except String String)
    (accounts : List Account) (params : distriParams) (pfx : String) (acc : Account)
    (msg : String)
    (hpfx : pfx ≠ "") (hmem : acc ∈ accounts) (hns : acc.Address ∉ icfWallets)
    (hnz : roundInt (accountAwards params
      (nonVotersMultiplierOf (pass1 accounts) params) acc).airdropAmt ≠ 0)
    (hcvt : cvt acc.Address "cosmos" pfx = .error msg) :
    (distribution cvt accounts params pfx).toOption = none := by
  obtain ⟨e, he⟩ := foldlM_reaches_error (pass2step cvt pfx)
    (fun s => s.params = params ∧
      s.nonVotersMultiplier = nonVotersMultiplierOf (pass1 accounts) params)
    (fun s a s' hs hstep => by
      obtain ⟨g1, g2, -⟩ := pass2step_fields cvt pfx s a s' hstep
      exact ⟨g1.trans hs.1, g2.trans hs.2⟩)
    acc
    (fun s hs => pass2step_fails cvt pfx params
      (nonVotersMultiplierOf (pass1 accounts) params) acc msg hns hnz hpfx hcvt s hs.1 hs.2)
    accounts (distributionInit accounts params) hmem ⟨rfl, rfl⟩
  simp only [distribution]
  rw [he]
  rfl

theorem c4_conversion_failure_atomic_witness :
    ("atone" : String) ≠ "" ∧ accY ∈ accsW ∧ accY.Address ∉ icfWallets ∧
      roundInt (accountAwards defaultDistriParams
        (nonVotersMultiplierOf (pass1 accsW) defaultDistriParams) accY).airdropAmt ≠ 0 ∧
      cvtBad accY.Address "cosmos" "atone" = .error "decoding bech32 failed" ∧
      (distribution cvtBad accsW defaultDistriParams "atone").toOption = none :=
  ⟨by decide, by decide, by decide, by decide, rfl,
    c4_conversion_failure_atomic cvtBad accsW defaultDistriParams "atone" accY
      "decoding bech32 failed" (by decide) (by decide) (by decide) (by decide) rfl⟩

/-- Claim C7: a non-slashed account whose total award rounds to the integer
zero leaves both output maps untouched (so its address is not recorded),
while its exact unrounded award amounts are still added to the result-token
distrib's votes, supply and unstaked aggregates (`addAtone` adds the exact
`Dec` amounts; rounding happens only in the per-address recording). -/
theorem c7_zero_award_omitted_but_aggregated
    (cvt : String → String → String → Except String String) (pfx : String)
    (ad : airdrop) (acc : Account)
    (hns : acc.Address ∉ icfWallets)
    (hz : roundInt (accountAwards ad.params ad.nonVotersMultiplier acc).airdropAmt = 0) :
    pass2step cvt pfx ad acc = .ok (pass2core ad acc) ∧
      (pass2core ad acc).addresses = ad.addresses ∧
      (pass2core ad acc).addressesDetail = ad.addressesDetail ∧
      (pass2core ad acc).atone =
        addAtone ad.atone (accountAwards ad.params ad.nonVotersMultiplier acc) :=
  ⟨pass2step_zero cvt pfx ad acc hns hz, rfl, rfl, rfl⟩

theorem c7_zero_award_omitted_but_aggregated_witness :
    accN.Address ∉ icfWallets ∧
      roundInt (accountAwards (distributionInit accsW defaultDistriParams).params
        (distributionInit accsW defaultDistriParams).nonVotersMultiplier accN).airdropAmt = 0 ∧
      pass2step cvtId "" (distributionInit accsW defaultDistriParams) accN =
        .ok (pass2core (distributionInit accsW defaultDistriParams) accN) :=
  ⟨by decide, by decide,
    (c7_zero_award_omitted_but_aggregated cvtId "" (distributionInit accsW defaultDistriParams)
      accN (by decide) (by decide)).1⟩

/-- A successful step preserves the invariant that every recorded
`airdropDetail`'s `Total` is the sum of its six result amounts. -/
theorem pass2step_detail_inv (cvt : String → String → String → Except String String)
    (pfx : String) (s : airdrop) (acc : Account) (s' : airdrop)
    (hs : ∀ a d, s.addressesDetail a = some d →
      d.Total = d.YesDetail.AtoneAmt + d.NoDetail.AtoneAmt + d.NWVDetail.AtoneAmt +
        d.AbsDetail.AtoneAmt + d.DnvDetail.AtoneAmt + d.LiquidDetail.AtoneAmt)
    (h : pass2step cvt pfx s acc = .ok s') :
    ∀ a d, s'.addressesDetail a = some d →
      d.Total = d.YesDetail.AtoneAmt + d.NoDetail.AtoneAmt + d.NWVDetail.AtoneAmt +
        d.AbsDetail.AtoneAmt + d.DnvDetail.AtoneAmt + d.LiquidDetail.AtoneAmt := by
  simp only [pass2step] at h
  split at h
  · cases h; exact hs
  · split at h
    · cases h; exact hs
    · split at h
      · cases h
      · next addr heq =>
        split at h
        · next hcheck =>
          cases h
          intro a d hd
          rw [show (pass2record (pass2core s acc) addr
                (roundInt (accountAwards s.params s.nonVotersMultiplier acc).airdropAmt)
                (mkDetail s.params s.nonVotersMultiplier acc
                  (accountAwards s.params s.nonVotersMultiplier acc))).addressesDetail =
              mapInsert s.addressesDetail addr
                (mkDetail s.params s.nonVotersMultiplier acc
                  (accountAwards s.params s.nonVotersMultiplier acc)) from rfl] at hd
          rw [mapInsert] at hd
          by_cases ha : a = addr
          · rw [if_pos ha] at hd
            cases hd
            exact hcheck.symm
          · rw [if_neg ha] at hd
            exact hs a d hd
        · cases h

/-- Claim C5: for every address recorded in the result detail mapping, the
sum of the six `AmountDetail` result amounts equals the recorded `Total`
(the account's total award) as the same exact decimal value; consequently
the fatal self-check (the panic on mismatch, embedded as
`DistErr.detailMismatch`) is unreachable. -/
theorem c5_detail_total_consistent :
    (∀ (cvt : String → String → String → Except String String) (accounts : List Account)
        (params : distriParams) (pfx : String),
        distribution cvt accounts params pfx ≠ .error DistErr.detailMismatch) ∧
      (∀ (cvt : String → String → String → Except String String) (accounts : List Account)
        (params : distriParams) (pfx : String) (res : airdrop) (a : String)
        (d : airdropDetail),
        distribution cvt accounts params pfx = .ok res →
        res.addressesDetail a = some d →
        d.Total = d.YesDetail.AtoneAmt + d.NoDetail.AtoneAmt + d.NWVDetail.AtoneAmt +
          d.AbsDetail.AtoneAmt + d.DnvDetail.AtoneAmt + d.LiquidDetail.AtoneAmt) := by
  constructor
  · intro cvt accounts params pfx h
    simp only [distribution] at h
    split at h
    · next e heq =>
      cases h
      exact foldlM_ne_error (pass2step cvt pfx) DistErr.detailMismatch
        (fun s a => pass2step_ne_detailMismatch cvt pfx s a) accounts _ heq
    · cases h
  · intro cvt accounts params pfx res a d h hd
    obtain ⟨ad, heq, rfl⟩ := distribution_ok_elim cvt accounts params pfx res h
    have hP := foldlM_ok_inv (pass2step cvt pfx)
      (fun s => ∀ a d, s.addressesDetail a = some d →
        d.Total = d.YesDetail.AtoneAmt + d.NoDetail.AtoneAmt + d.NWVDetail.AtoneAmt +
          d.AbsDetail.AtoneAmt + d.DnvDetail.AtoneAmt + d.LiquidDetail.AtoneAmt)
      (fun s acc s' hss hstep => pass2step_detail_inv cvt pfx s acc s' hss hstep)
      accounts _ ad (fun a d hd0 => by cases hd0) heq
    exact hP a d hd

theorem c5_detail_total_consistent_witness :
    (distribution cvtId accsW defaultDistriParams "").toOption.map
        (fun r => Option.map detailTotalB (r.addressesDetail "a1")) = some (some true) := by
  cases hE : distribution cvtId accsW defaultDistriParams "" with
  | error e =>
    have hs : (distribution cvtId accsW defaultDistriParams "").toOption.isSome = true := by
      decide
    rw [hE] at hs
    simp [Except.toOption] at hs
  | ok res =>
    cases hD : res.addressesDetail "a1" with
    | none =>
      have hs : (distribution cvtId accsW defaultDistriParams "").toOption.map
          (fun r => (r.addressesDetail "a1").isSome) = some true := by decide
      rw [hE] at hs
      simp [Except.toOption] at hs
      rw [hD] at hs
      cases hs
    | some d =>
      have ht := c5_detail_total_consistent.2 cvtId accsW defaultDistriParams "" res "a1" d
        hE hD
      simp [Except.toOption, hD, detailTotalB, ht]

/-- A successful step never records anything under a slashed address,
provided the converter never produces one (real bech32 re-encoding cannot
emit one of the fixed `cosmos`-prefixed wallet strings for a non-slashed
input, and with the empty prefix no conversion happens at all). -/
theorem pass2step_absent (cvt : String → String → String → Except String String)
    (pfx : String) (a : String) (s : airdrop) (acc : Account) (s' : airdrop)
    (hcvt : ∀ t u, cvt t "cosmos" pfx = .ok u → u ∉ icfWallets)
    (ha : a ∈ icfWallets)
    (h1 : s.addresses a = none) (h2 : s.addressesDetail a = none)
    (h : pass2step cvt pfx s acc = .ok s') :
    s'.addresses a = none ∧ s'.addressesDetail a = none := by
  simp only [pass2step] at h
  split at h
  · cases h; exact ⟨h1, h2⟩
  · next hns =>
    split at h
    · cases h; exact ⟨h1, h2⟩
    · split at h
      · cases h
      · next addr heq =>
        split at h
        · cases h
          have haddr : a ≠ addr := by
            by_cases hpfx : pfx = ""
            · rw [if_pos hpfx] at heq
              cases heq
              intro hcontra
              exact hns (hcontra ▸ ha)
            · rw [if_neg hpfx] at heq
              intro hcontra
              exact hcvt acc.Address addr heq (hcontra ▸ ha)
          constructor
          · show mapInsert s.addresses addr _ a = none
            rw [mapInsert, if_neg haddr]
            exact h1
          · show mapInsert s.addressesDetail addr _ a = none
            rw [mapInsert, if_neg haddr]
            exact h2
        · cases h

/-- Claim C6: accounts whose address is on the fixed ICF wallet list get
zero award: the address never appears in the result address or detail
mapping (assuming the bech32 converter cannot output a slashed address,
which holds vacuously for the empty prefix), and the step for a slashed
account changes nothing but `icfSlash`, into which the full staked+liquid
amount is added. -/
theorem c6_slashed_accounts_get_nothing :
    (∀ (cvt : String → String → String → Except String String) (accounts : List Account)
        (params : distriParams) (pfx : String) (res : airdrop) (a : String),
        (∀ t u, cvt t "cosmos" pfx = .ok u → u ∉ icfWallets) →
        a ∈ icfWallets →
        distribution cvt accounts params pfx = .ok res →
        res.addresses a = none ∧ res.addressesDetail a = none) ∧
      (∀ (cvt : String → String → String → Except String String) (pfx : String)
        (ad : airdrop) (acc : Account),
        acc.Address ∈ icfWallets →
        pass2step cvt pfx ad acc =
          .ok { ad with icfSlash := ad.icfSlash + acc.LiquidAmount + acc.StakedAmount }) := by
  constructor
  · intro cvt accounts params pfx res a hcvt ha h
    obtain ⟨ad, heq, rfl⟩ := distribution_ok_elim cvt accounts params pfx res h
    exact foldlM_ok_inv (pass2step cvt pfx)
      (fun s => s.addresses a = none ∧ s.addressesDetail a = none)
      (fun s acc s' hss hstep =>
        pass2step_absent cvt pfx a s acc s' hcvt ha hss.1 hss.2 hstep)
      accounts _ ad ⟨rfl, rfl⟩ heq
  · intro cvt pfx ad acc hicf
    exact pass2step_slashed cvt pfx ad acc hicf

theorem c6_slashed_accounts_get_nothing_witness :
    accICF.Address ∈ icfWallets ∧
      (distribution cvtBad [accY, accICF] defaultDistriParams "").toOption.map
          (fun r => (r.addresses accICF.Address).isNone &&
            (r.addressesDetail accICF.Address).isNone) = some true ∧
      (pass2step cvtBad "" (distributionInit [accY, accICF] defaultDistriParams)
          accICF).toOption.map airdrop.icfSlash = some (newDec 100) := by
  refine ⟨by decide, ?_, ?_⟩
  · cases hE : distribution cvtBad [accY, accICF] defaultDistriParams "" with
    | error e =>
      have hs : (distribution cvtBad [accY, accICF] defaultDistriParams "").toOption.isSome =
          true := by decide
      rw [hE] at hs
      simp [Except.toOption] at hs
    | ok res =>
      obtain ⟨ha1, ha2⟩ := c6_slashed_accounts_get_nothing.1 cvtBad [accY, accICF]
        defaultDistriParams "" res accICF.Address
        (fun t u hcontra => by simp [cvtBad] at hcontra) (by decide) hE
      simp [Except.toOption, ha1, ha2]
  · rw [c6_slashed_accounts_get_nothing.2 cvtBad ""
      (distributionInit [accY, accICF] defaultDistriParams) accICF (by decide)]
    show some ((distributionInit [accY, accICF] defaultDistriParams).icfSlash +
      accICF.LiquidAmount + accICF.StakedAmount) = some (newDec 100)
    decide

/-! ### Helper lemmas: conservation -/

/-- `chopPrecisionAndRound` on naturals is at distance at most half a unit
from the exact quotient, after rescaling. -/
theorem chopN_le (n : ℕ) :
    -(HALFPRECN : ℤ) ≤ PREC * chopN n - n ∧ PREC * chopN n - n ≤ (HALFPRECN : ℤ) := by
  unfold chopN PREC PRECN HALFPRECN
  split_ifs with h0 hge
  · omega
  · omega
  · omega

/-- `chopPrecisionAndRound` is at distance at most half a unit from the
exact quotient, after rescaling. -/
theorem chopRound_err (x : ℤ) :
    -(HALFPRECN : ℤ) ≤ PREC * chopRound x - x ∧ PREC * chopRound x - x ≤ (HALFPRECN : ℤ) := by
  unfold chopRound
  split_ifs with hx
  · have h := chopN_le x.natAbs
    rw [Int.natAbs_of_nonneg hx] at h
    exact h
  · push_neg at hx
    have h := chopN_le x.natAbs
    have hna : (x.natAbs : ℤ) = -x := by omega
    rw [hna] at h
    constructor
    · linarith [h.2]
    · linarith [h.1]

/-- An account whose five weights sum to one contributes at most 2 internal
units of conservation defect to the pass-1 aggregation (five roundings of
at most half a unit each). -/
theorem acctDefect_bound (acc : Account) (hw : weightSum acc = oneDec) :
    (acctDefect acc).natAbs ≤ 2 := by
  have hY := chopRound_err (acc.wYes * acc.StakedAmount)
  have hN := chopRound_err (acc.wNo * acc.StakedAmount)
  have hW := chopRound_err (acc.wNoWithVeto * acc.StakedAmount)
  have hA := chopRound_err (acc.wAbstain * acc.StakedAmount)
  have hV := chopRound_err (acc.wNoVote * acc.StakedAmount)
  have hs : acc.wYes * acc.StakedAmount + acc.wNo * acc.StakedAmount +
      acc.wNoWithVeto * acc.StakedAmount + acc.wAbstain * acc.StakedAmount +
      acc.wNoVote * acc.StakedAmount = PREC * acc.StakedAmount := by
    have h := hw
    simp only [weightSum, oneDec] at h
    linear_combination acc.StakedAmount * h
  simp only [PREC, HALFPRECN] at hY hN hW hA hV hs
  push_cast at hY hN hW hA hV
  have hD : (1000000000000000000 : ℤ) * acctDefect acc =
      (1000000000000000000 * chopRound (acc.wYes * acc.StakedAmount) -
        acc.wYes * acc.StakedAmount) +
      (1000000000000000000 * chopRound (acc.wNo * acc.StakedAmount) -
        acc.wNo * acc.StakedAmount) +
      (1000000000000000000 * chopRound (acc.wNoWithVeto * acc.StakedAmount) -
        acc.wNoWithVeto * acc.StakedAmount) +
      (1000000000000000000 * chopRound (acc.wAbstain * acc.StakedAmount) -
        acc.wAbstain * acc.StakedAmount) +
      (1000000000000000000 * chopRound (acc.wNoVote * acc.StakedAmount) -
        acc.wNoVote * acc.StakedAmount) := by
    simp only [acctDefect, decMul]
    linear_combination hs
  have hb1 : (1000000000000000000 : ℤ) * acctDefect acc ≤ 2500000000000000000 := by
    rw [hD]; linarith [hY.2, hN.2, hW.2, hA.2, hV.2]
  have hb2 : -(2500000000000000000 : ℤ) ≤ 1000000000000000000 * acctDefect acc := by
    rw [hD]; linarith [hY.1, hN.1, hW.1, hA.1, hV.1]
  omega

theorem pass1step_delta (d0 : distrib) (a : Account) :
    voteSum (pass1step d0 a).votes + (pass1step d0 a).unstaked - (pass1step d0 a).supply =
      voteSum d0.votes + d0.unstaked - d0.supply + acctDefect a := by
  simp only [pass1step, voteSum, acctDefect, decMul]
  ring

theorem pass1_foldl_delta : ∀ (l : List Account) (d0 : distrib),
    voteSum (List.foldl pass1step d0 l).votes + (List.foldl pass1step d0 l).unstaked -
        (List.foldl pass1step d0 l).supply =
      voteSum d0.votes + d0.unstaked - d0.supply + (l.map acctDefect).sum := by
  intro l
  induction l with
  | nil => intro d0; simp
  | cons a l ih =>
    intro d0
    rw [List.foldl_cons, List.map_cons, List.sum_cons, ih (pass1step d0 a), pass1step_delta]
    ring

/-- The pass-1 conservation defect is the sum of the per-account defects. -/
theorem pass1_defect (accounts : List Account) :
    voteSum (pass1 accounts).votes + (pass1 accounts).unstaked - (pass1 accounts).supply =
      (accounts.map acctDefect).sum := by
  rw [pass1, pass1_foldl_delta]
  norm_num [voteSum, newVoteMap]

theorem sum_defect_bound (accounts : List Account)
    (hw : ∀ acc ∈ accounts, weightSum acc = oneDec) :
    ((accounts.map acctDefect).sum).natAbs ≤ 2 * accounts.length := by
  induction accounts with
  | nil => simp
  | cons a l ih =>
    have ha := acctDefect_bound a (hw a (List.mem_cons_self a l))
    have hl := ih (fun acc hacc => hw acc (List.mem_cons_of_mem a hacc))
    simp only [List.map_cons, List.sum_cons, List.length_cons]
    omega

/-- Adding an account's award amounts preserves exact conservation of the
result-token distrib (all additions are exact). -/
theorem addAtone_conserve (d : distrib) (params : distriParams) (m : Dec) (acc : Account)
    (hd : voteSum d.votes + d.unstaked = d.supply) :
    voteSum (addAtone d (accountAwards params m acc)).votes +
        (addAtone d (accountAwards params m acc)).unstaked =
      (addAtone d (accountAwards params m acc)).supply := by
  have h1 := accountAwards_airdrop_eq params m acc
  have h2 := accountAwards_staked_eq params m acc
  simp only [addAtone, voteSum] at *
  linarith

/-- The result-token distrib after a successful step is either unchanged or
incremented by the account's exact award amounts. -/
theorem pass2step_atone (cvt : String → String → String → Except String String)
    (pfx : String) (s : airdrop) (acc : Account) (s' : airdrop)
    (h : pass2step cvt pfx s acc = .ok s') :
    s'.atone = s.atone ∨
      s'.atone = addAtone s.atone (accountAwards s.params s.nonVotersMultiplier acc) := by
  simp only [pass2step] at h
  split at h
  · cases h; exact Or.inl rfl
  · split at h
    · cases h; exact Or.inr rfl
    · split at h
      · cases h
      · split at h
        · cases h; exact Or.inr rfl
        · cases h

/-- Claim C8 (amended): the result-token distrib of every successful
`distribution` run satisfies exact conservation
(`sum votes + unstaked = supply`); the source-token distrib satisfies it
only up to the per-account rounding of the five `Mul` products: when every
account's weights sum to 1 the defect is at most 2 internal units
(`2e-18`) per account.  Exact conservation of the source distrib fails in
general (see the counterexample). -/
theorem c8_distrib_conservation :
    (∀ (cvt : String → String → String → Except String String) (accounts : List Account)
        (params : distriParams) (pfx : String) (res : airdrop),
        distribution cvt accounts params pfx = .ok res →
        voteSum res.atone.votes + res.atone.unstaked = res.atone.supply) ∧
      (∀ (cvt : String → String → String → Except String String) (accounts : List Account)
        (params : distriParams) (pfx : String) (res : airdrop),
        distribution cvt accounts params pfx = .ok res →
        (∀ acc ∈ accounts, weightSum acc = oneDec) →
        (voteSum res.atom.votes + res.atom.unstaked - res.atom.supply).natAbs ≤
          2 * accounts.length) := by
  constructor
  · intro cvt accounts params pfx res h
    obtain ⟨ad, heq, rfl⟩ := distribution_ok_elim cvt accounts params pfx res h
    exact foldlM_ok_inv (pass2step cvt pfx)
      (fun s => voteSum s.atone.votes + s.atone.unstaked = s.atone.supply)
      (fun s acc s' hss hstep => by
        rcases pass2step_atone cvt pfx s acc s' hstep with h' | h'
        · rw [h']; exact hss
        · rw [h']
          exact addAtone_conserve s.atone s.params s.nonVotersMultiplier acc hss)
      accounts _ ad (by norm_num [distributionInit, voteSum, newVoteMap]) heq
  · intro cvt accounts params pfx res h hw
    obtain ⟨-, -, h3⟩ := distribution_ok_fields cvt accounts params pfx res h
    rw [h3, pass1_defect accounts]
    exact sum_defect_bound accounts hw

/-- Claim C8, counterexample to exact source-token conservation: a single
account whose five weights sum exactly to 1 (`6e-18`, `6e-18`,
`1 - 12e-18` on Yes/No/Abstain) with `0.1` staked makes
`votes[Yes]+votes[No]+votes[NoWithVeto]+votes[Abstain]+votes[NoVote] +
unstaked` exceed `supply` by one internal unit in the $ATOM distrib
produced by `distribution`. -/
theorem c8_atom_conservation_not_exact :
    weightSum accCE = oneDec ∧
      (distribution cvtId [accCE] defaultDistriParams "").toOption.map
          (fun r => conserveB r.atom) = some false := by
  constructor
  · decide
  · decide

theorem c8_distrib_conservation_witness :
    accsW.all (fun acc => weightSum acc == oneDec) = true ∧
      (distribution cvtId accsW defaultDistriParams "").toOption.map
          (fun r => conserveB r.atone && sourceDeltaLeB r.atom accsW.length) = some true := by
  refine ⟨by decide, ?_⟩
  cases hE : distribution cvtId accsW defaultDistriParams "" with
  | error e =>
    have hs : (distribution cvtId accsW defaultDistriParams "").toOption.isSome = true := by
      decide
    rw [hE] at hs
    simp [Except.toOption] at hs
  | ok res =>
    have h1 := c8_distrib_conservation.1 cvtId accsW defaultDistriParams "" res hE
    have h2 := c8_distrib_conservation.2 cvtId accsW defaultDistriParams "" res hE
      (by decide)
    simp [Except.toOption, conserveB, sourceDeltaLeB, h1, Nat.ble_eq, h2]

/-- Claim C10: slashed (ICF wallet) accounts are included in the pass-1
source-token aggregation and therefore contribute to the multiplier
solve, even though pass 2 excludes them: (i) the pass-1 step does not read
the account address at all, so slashed accounts are aggregated like any
other; (ii) the multiplier stored by `distribution` is solved from the
pass-1 aggregation of the whole account list; (iii) concretely, adding a
slashed Yes-voting account to a one-account list changes the solved
multiplier while the slashed account itself gets no award (its address is
absent and its full balance lands in `icfSlash`). -/
theorem c10_slashed_included_in_pass1 :
    (∀ (d : distrib) (acc : Account) (s : String),
        pass1step d { acc with Address := s } = pass1step d acc) ∧
      (∀ (cvt : String → String → String → Except String String) (accounts : List Account)
        (params : distriParams) (pfx : String) (res : airdrop),
        distribution cvt accounts params pfx = .ok res →
        res.nonVotersMultiplier = nonVotersMultiplierOf (pass1 accounts) params) ∧
      (distribution cvtId [accN] defaultDistriParams "").toOption.map
          airdrop.nonVotersMultiplier ≠
        (distribution cvtId [accN, accICFYes] defaultDistriParams "").toOption.map
          airdrop.nonVotersMultiplier ∧
      (distribution cvtId [accN, accICFYes] defaultDistriParams "").toOption.map
          (fun r => (r.addresses accICFYes.Address).isNone) = some true ∧
      (distribution cvtId [accN, accICFYes] defaultDistriParams "").toOption.map
          airdrop.icfSlash = some (newDec 100) := by
  refine ⟨fun d acc s => rfl, ?_, by decide, by decide, by decide⟩
  intro cvt accounts params pfx res h
  exact (distribution_ok_fields cvt accounts params pfx res h).2.1

theorem c10_slashed_included_in_pass1_witness :
    (distribution cvtId [accN, accICFYes] defaultDistriParams "").toOption.map
        airdrop.nonVotersMultiplier =
      some (nonVotersMultiplierOf (pass1 [accN, accICFYes]) defaultDistriParams) := by
  cases hE : distribution cvtId [accN, accICFYes] defaultDistriParams "" with
  | error e =>
    have hs : (distribution cvtId [accN, accICFYes] defaultDistriParams "").toOption.isSome =
        true := by decide
    rw [hE] at hs
    simp [Except.toOption] at hs
  | ok res =>
    have h := c10_slashed_included_in_pass1.2.1 cvtId [accN, accICFYes] defaultDistriParams ""
      res hE
    simp [Except.toOption, h]

end Genbox
